import Mathlib

/-!
Shallow embedding of the evalcraft evaluation engine
(crates/evalcraft-core: runner.rs, trace.rs, testing.rs and the shared
data model in crates/evalcraft-types/src/lib.rs).

Modelling conventions:
* `serde_json::Value` is modelled by the inductive `Value` below.
* Rust `f64` score values are modelled by `Rat` (the code performs only
  sums, divisions and comparisons on them).
* `SystemTime` timestamps are modelled as `Nat` (milliseconds); the engine
  never interprets trace contents.
* Async execution is modelled by reifying effects: a task or scorer call
  returns the list of trace actions it performs together with its
  `Result` value, and the `tokio::task_local!` trace storage is modelled
  by an explicit stack of scopes (innermost first).
-/

namespace Evalcraft

/-- Model of `serde_json::Value`. -/
inductive Value where
  | null : Value
  | bool (b : Bool) : Value
  | num (q : Rat) : Value
  | str (s : String) : Value
  | arr (xs : List Value) : Value
  | obj (fields : List (String × Value)) : Value

mutual

def Value.decEq : (a b : Value) → Decidable (a = b)
  | .null, .null => isTrue rfl
  | .bool a, .bool b =>
    match inferInstanceAs (Decidable (a = b)) with
    | isTrue h => isTrue (by rw [h])
    | isFalse h => isFalse (by simp only [Value.bool.injEq]; exact h)
  | .num a, .num b =>
    match inferInstanceAs (Decidable (a = b)) with
    | isTrue h => isTrue (by rw [h])
    | isFalse h => isFalse (by simp only [Value.num.injEq]; exact h)
  | .str a, .str b =>
    match inferInstanceAs (Decidable (a = b)) with
    | isTrue h => isTrue (by rw [h])
    | isFalse h => isFalse (by simp only [Value.str.injEq]; exact h)
  | .arr xs, .arr ys =>
    match Value.decEqList xs ys with
    | isTrue h => isTrue (by rw [h])
    | isFalse h => isFalse (by simp only [Value.arr.injEq]; exact h)
  | .obj fs, .obj gs =>
    match Value.decEqFields fs gs with
    | isTrue h => isTrue (by rw [h])
    | isFalse h => isFalse (by simp only [Value.obj.injEq]; exact h)
  | .null, .bool _ | .null, .num _ | .null, .str _ | .null, .arr _ | .null, .obj _
  | .bool _, .null | .bool _, .num _ | .bool _, .str _ | .bool _, .arr _ | .bool _, .obj _
  | .num _, .null | .num _, .bool _ | .num _, .str _ | .num _, .arr _ | .num _, .obj _
  | .str _, .null | .str _, .bool _ | .str _, .num _ | .str _, .arr _ | .str _, .obj _
  | .arr _, .null | .arr _, .bool _ | .arr _, .num _ | .arr _, .str _ | .arr _, .obj _
  | .obj _, .null | .obj _, .bool _ | .obj _, .num _ | .obj _, .str _ | .obj _, .arr _ =>
    isFalse nofun

def Value.decEqList : (xs ys : List Value) → Decidable (xs = ys)
  | [], [] => isTrue rfl
  | _ :: _, [] => isFalse nofun
  | [], _ :: _ => isFalse nofun
  | x :: xs, y :: ys =>
    match Value.decEq x y with
    | isFalse h => isFalse (by simp only [List.cons.injEq]; intro hh; exact h hh.1)
    | isTrue h =>
      match Value.decEqList xs ys with
      | isTrue h2 => isTrue (by rw [h, h2])
      | isFalse h2 => isFalse (by simp only [List.cons.injEq]; intro hh; exact h2 hh.2)

def Value.decEqFields : (xs ys : List (String × Value)) → Decidable (xs = ys)
  | [], [] => isTrue rfl
  | _ :: _, [] => isFalse nofun
  | [], _ :: _ => isFalse nofun
  | (k₁, v₁) :: xs, (k₂, v₂) :: ys =>
    match inferInstanceAs (Decidable (k₁ = k₂)) with
    | isFalse h => isFalse (by
        simp only [List.cons.injEq, Prod.mk.injEq]
        intro hh; exact h hh.1.1)
    | isTrue h =>
      match Value.decEq v₁ v₂ with
      | isFalse h2 => isFalse (by
          simp only [List.cons.injEq, Prod.mk.injEq]
          intro hh; exact h2 hh.1.2)
      | isTrue h2 =>
        match Value.decEqFields xs ys with
        | isTrue h3 => isTrue (by rw [h, h2, h3])
        | isFalse h3 => isFalse (by
            simp only [List.cons.injEq, Prod.mk.injEq]
            intro hh; exact h3 hh.2)

end

instance : DecidableEq Value := Value.decEq

/-- `TestCase` (evalcraft-types/src/lib.rs lines 141-146). -/
structure TestCase where
  id : Option String
  input : Value
  expected : Value
  deriving DecidableEq

/-- `Score` (evalcraft-types/src/lib.rs lines 158-165). -/
structure Score where
  name : String
  value : Rat
  passed : Bool
  details : Option Value
  deriving DecidableEq

/-- `TokenUsage` (evalcraft-types/src/lib.rs lines 46-51). -/
structure TokenUsage where
  input_tokens : Nat
  output_tokens : Nat
  total_tokens : Nat
  deriving DecidableEq

/-- `Trace` (evalcraft-types/src/lib.rs lines 7-44).  `SystemTime` is
modelled as a `Nat` millisecond timestamp; the engine only collects traces
and never inspects these fields. -/
structure Trace where
  id : Option String
  start : Nat
  stop : Nat
  duration_ms : Option Nat
  model : Option String
  input : Value
  output : Value
  usage : Option TokenUsage
  metadata : Option Value
  error : Option String
  deriving DecidableEq

/-- `CaseResult` (evalcraft-types/src/lib.rs lines 167-176).  This is the
shape `runner.rs` constructs (with the `traces` field); the stale duplicate
in evalcraft-core/src/types.rs lines 31-38 lacks `traces` and cannot be the
struct the runner builds. -/
structure CaseResult where
  case : TestCase
  output : Value
  error : Option String
  scores : List Score
  traces : List Trace
  deriving DecidableEq

/-- `EvalSummary` (evalcraft-types/src/lib.rs lines 178-184). -/
structure EvalSummary where
  total : Nat
  passed : Nat
  pass_rate : Rat
  avg_score : Rat
  deriving DecidableEq

/-- `EvalResult` (evalcraft-types/src/lib.rs lines 186-190). -/
structure EvalResult where
  cases : List CaseResult
  summary : EvalSummary
  deriving DecidableEq

/-- One step of the accumulation loop inside `EvalResult::summarize`
(evalcraft-types/src/lib.rs lines 209-218): the accumulator carries
`(passed, score_sum, score_count)`. -/
def summarizeStep (acc : Nat × Rat × Nat) (cr : CaseResult) : Nat × Rat × Nat :=
  let all_passed := !cr.scores.isEmpty && cr.scores.all (fun s => s.passed)
  let passed := if all_passed then acc.1 + 1 else acc.1
  let inner := cr.scores.foldl (fun a s => (a.1 + s.value, a.2 + 1)) (acc.2.1, acc.2.2)
  (passed, inner.1, inner.2)

/-- `EvalResult::summarize` (evalcraft-types/src/lib.rs lines 203-224,
identical text at evalcraft-core/src/types.rs lines 65-86). -/
def EvalResult.summarize (cases : List CaseResult) : EvalSummary :=
  let total := cases.length
  let acc := cases.foldl summarizeStep (0, 0, 0)
  let passed := acc.1
  let score_sum := acc.2.1
  let score_count := acc.2.2
  let pass_rate : Rat := if total = 0 then 0 else (passed : Rat) / (total : Rat)
  let avg_score : Rat := if score_count = 0 then 0 else score_sum / (score_count : Rat)
  { total := total, passed := passed, pass_rate := pass_rate, avg_score := avg_score }

/-! ### Trace scope (evalcraft-core/src/trace.rs)

`tokio::task_local! { static TRACES: RefCell<Vec<Trace>> }` gives every
logical task its own stack of bindings: `TRACES.scope` installs a fresh
binding for the dynamic extent of its body, and when the scope exits the
previous bindings are in effect again, untouched.  We model this storage as
an explicit stack of scopes, innermost first (`[]` = no active scope), and
reify the trace effects a computation performs as a list of `TraceAct`s:
`emit t` is a `report_trace(t)` call and `nested body` is a nested
`scope_traces(body)` call. -/

/-- The task-local trace storage: stack of active scopes, innermost first.
An empty stack means no `scope_traces` scope is active. -/
abbrev TraceState := List (List Trace)

/-- `report_trace` (trace.rs lines 24-28): `TRACES.try_with` pushes onto the
innermost active binding; when no scope is active `try_with` returns an
`AccessError` which is discarded (`let _ =`), so nothing happens. -/
def report_trace (t : Trace) : TraceState → TraceState
  | [] => []
  | scope :: rest => (scope ++ [t]) :: rest

/-- One trace-relevant action a computation can perform while running. -/
inductive TraceAct where
  | emit (t : Trace)
  | nested (body : List TraceAct)

mutual

/-- Run a list of trace actions against the task-local storage. -/
def runActs : List TraceAct → TraceState → TraceState
  | [], st => st
  | a :: rest, st => runActs rest (runAct a st)

/-- Run one trace action against the task-local storage. -/
def runAct : TraceAct → TraceState → TraceState
  | .emit t, st => report_trace t st
  | .nested body, st => (scope_tracesState body st).2

/-- State effect of `scope_traces` (trace.rs lines 11-21): push a fresh
empty binding (`TRACES.scope(RefCell::new(Vec::new()), ..)`), run the body,
read the collected traces out of the innermost binding, and exit the scope,
which re-exposes the caller's bindings unchanged (the outer `RefCell`s were
never accessible to the body). -/
def scope_tracesState (body : List TraceAct) (st : TraceState) :
    List Trace × TraceState :=
  let st2 := runActs body ([] :: st)
  (st2.headD [], st)

end

/-- `scope_traces` (trace.rs lines 11-21): run `body` (whose pure outcome is
`res` — any value, including an `Err`) inside a fresh scope and return the
outcome together with the traces collected in that scope. -/
def scope_traces (res : α) (body : List TraceAct) (st : TraceState) :
    (α × List Trace) × TraceState :=
  ((res, (scope_tracesState body st).1), (scope_tracesState body st).2)

/-- `get_traces` (trace.rs lines 31-33). -/
def get_traces (st : TraceState) : List Trace :=
  st.headD []

/-- The traces a list of actions emits into the scope that is current when
it starts running: `report_trace` calls append, nested `scope_traces` bodies
deposit into their own fresh scope and are not visible here. -/
def emitted : List TraceAct → List Trace
  | [] => []
  | .emit t :: rest => t :: emitted rest
  | .nested _ :: rest => emitted rest

/-! ### Task / Scorer contracts (task.rs, scorer.rs)

`Task::run` and `Scorer::score` are async trait objects returning
`anyhow::Result`; we model a call as a pure function returning the trace
actions it performs plus its `Result` (`Except String`). -/

/-- `Task` (task.rs lines 8-11): `run(&self, input: &Value) -> Result<Value>`,
together with the trace actions the call performs. -/
structure Task where
  run : Value → List TraceAct × Except String Value

/-- `Scorer` (scorer.rs lines 7-11): `name()` and
`score(&self, expected: &Value, output: &Value) -> Result<Score>`, together
with the trace actions the call performs. -/
structure Scorer where
  name : String
  score : Value → Value → List TraceAct × Except String Score

/-! ### Execution engine (evalcraft-core/src/runner.rs) -/

/-- `DataSource` (datasource.rs lines 10-12): `load() -> Result<Vec<TestCase>>`. -/
structure DataSource where
  load : Except String (List TestCase)

/-- `VecDataSource` (datasource.rs lines 14-29): `load` clones and returns
the stored cases. -/
def VecDataSource (cases : List TestCase) : DataSource :=
  { load := .ok cases }

/-- `Eval` (runner.rs lines 66-71). -/
structure Eval where
  data_source : DataSource
  task : Task
  scorers : List Scorer
  concurrency : Nat

/-- `EvalBuilder` (runner.rs lines 11-16). -/
structure EvalBuilder where
  data_source : Option DataSource
  task : Option Task
  scorers : List Scorer
  concurrency : Nat

/-- `EvalBuilder::new` (runner.rs lines 19-26). -/
def EvalBuilder.new : EvalBuilder :=
  { data_source := none, task := none, scorers := [], concurrency := 8 }

/-- `EvalBuilder::data_source` (runner.rs lines 28-31). -/
def EvalBuilder.set_data_source (b : EvalBuilder) (ds : DataSource) : EvalBuilder :=
  { b with data_source := some ds }

/-- `EvalBuilder::task` (runner.rs lines 33-36). -/
def EvalBuilder.set_task (b : EvalBuilder) (t : Task) : EvalBuilder :=
  { b with task := some t }

/-- `EvalBuilder::scorers` (runner.rs lines 38-44). -/
def EvalBuilder.set_scorers (b : EvalBuilder) (ss : List Scorer) : EvalBuilder :=
  { b with scorers := ss }

/-- `EvalBuilder::add_scorer` (runner.rs lines 46-49). -/
def EvalBuilder.add_scorer (b : EvalBuilder) (s : Scorer) : EvalBuilder :=
  { b with scorers := b.scorers ++ [s] }

/-- `EvalBuilder::concurrency` (runner.rs lines 51-54): `n.max(1)`. -/
def EvalBuilder.set_concurrency (b : EvalBuilder) (n : Nat) : EvalBuilder :=
  { b with concurrency := max n 1 }

/-- `EvalBuilder::build` (runner.rs lines 56-63): a plain synchronous
function; it fails with the first missing dependency (`data_source` checked
before `task`) and never touches `DataSource::load` or `Task::run`. -/
def EvalBuilder.build (b : EvalBuilder) : Except String Eval :=
  match b.data_source with
  | none => .error "data_source must be set"
  | some ds =>
    match b.task with
    | none => .error "task must be set"
    | some t =>
      .ok { data_source := ds, task := t, scorers := b.scorers,
            concurrency := b.concurrency }

/-- The body of the per-case async block (runner.rs lines 148-169): run the
task on the case's input; on success run every configured scorer in order
against `(expected, output)`, substituting the synthetic failing
`Score { name, value: 0.0, passed: false, details: {"error": ..} }` when a
scorer call errors; a task failure short-circuits with no scoring.  Returns
the reified trace actions the block performs together with its outcome. -/
def caseBody (task : Task) (scorers : List Scorer) («case» : TestCase) :
    List TraceAct × Except String (Value × List Score) :=
  match task.run «case».input with
  | (acts, .ok output) =>
    let scored : List (List TraceAct × Score) :=
      if scorers.isEmpty then []
      else scorers.map (fun s =>
        match s.score «case».expected output with
        | (sacts, .ok score) => (sacts, score)
        | (sacts, .error err) =>
          (sacts, { name := s.name, value := 0, passed := false,
                    details := some (.obj [("error", .str err)]) }))
    (acts ++ (scored.map Prod.fst).flatten, .ok (output, scored.map Prod.snd))
  | (acts, .error e) => (acts, .error e)

/-- One case's full execution unit (runner.rs lines 147-187): the case body
runs under `scope_traces` — started from a fresh logical task, so with no
enclosing scope — and its outcome is packed into a `CaseResult`: on task
failure `output` is `Null`, `error` is the failure message and `scores` is
empty; either way `traces` is what the scope collected. -/
def processCase (task : Task) (scorers : List Scorer) («case» : TestCase) :
    CaseResult :=
  let body := caseBody task scorers «case»
  let er := scope_traces body.2 body.1 []
  match er.1.1 with
  | .ok (output, scores) =>
    { case := «case», output := output, error := none, scores := scores,
      traces := er.1.2 }
  | .error err =>
    { case := «case», output := .null, error := some err, scores := [],
      traces := er.1.2 }

/-- Reordering performed by `buffer_unordered(..).collect()`: each future's
result is yielded exactly once, in a nondeterministic completion order.
`ord` records which input index completed at each output position; every
run of the stream corresponds to some `ord` that is a permutation of
`range n`. -/
def reorder (l : List α) (ord : List Nat) : List α :=
  ord.filterMap (fun i => l.get? i)

/-- `Eval::run_cases_internal` (runner.rs lines 140-195): drop the scorers
when `run_scorers` is false, map every case through its execution unit, and
collect the results in completion order `ord`. -/
def Eval.run_cases_internal (e : Eval) (cases : List TestCase)
    (run_scorers : Bool) (ord : List Nat) : List CaseResult :=
  let scorers := if run_scorers then e.scorers else []
  reorder (cases.map (processCase e.task scorers)) ord

/-- `Eval::run_cases` (runner.rs lines 136-138). -/
def Eval.run_cases (e : Eval) (cases : List TestCase) (ord : List Nat) :
    List CaseResult :=
  e.run_cases_internal cases true ord

/-- `Eval::run` (runner.rs lines 78-124).  The implicit-persistence block
(lines 84-121) only writes to an external store and logs on failure; it
never alters or withholds the returned `EvalResult`, so it has no effect on
the value modelled here. -/
def Eval.run (e : Eval) (ord : List Nat) : Except String EvalResult :=
  match e.data_source.load with
  | .error err => .error err
  | .ok cases =>
    let results := e.run_cases cases ord
    .ok { cases := results, summary := EvalResult.summarize results }

/-- `Eval::run_without_scoring` (runner.rs lines 128-134). -/
def Eval.run_without_scoring (e : Eval) (ord : List Nat) :
    Except String EvalResult :=
  match e.data_source.load with
  | .error err => .error err
  | .ok cases =>
    let results := e.run_cases_internal cases false ord
    .ok { cases := results, summary := EvalResult.summarize results }

/-! ### Testing helpers (evalcraft-core/src/testing.rs)

`assert_eval_pass_rate` builds its failure message with `format!` and
`EvalResult::summary_table`.  The table itself is rendered by the external
`tabled` crate (presentation, outside the engine per the spec); we model a
row as its cell contents joined by `" | "` and `f64` formatting
(`{:.1}`/`{:.3}`) by `toString` on `Rat`.  The claims about these helpers
depend only on which branch is taken, never on the message text. -/

mutual

/-- JSON rendering used by `Value::to_string()` in `value_preview`
(string escaping beyond quoting is elided). -/
def Value.render : Value → String
  | .null => "null"
  | .bool b => if b then "true" else "false"
  | .num q => toString q
  | .str s => "\"" ++ s ++ "\""
  | .arr xs => "[" ++ Value.renderList xs ++ "]"
  | .obj fs => "\x7b" ++ Value.renderFields fs ++ "\x7d"

def Value.renderList : List Value → String
  | [] => ""
  | [x] => Value.render x
  | x :: rest => Value.render x ++ "," ++ Value.renderList rest

def Value.renderFields : List (String × Value) → String
  | [] => ""
  | [(k, v)] => "\"" ++ k ++ "\":" ++ Value.render v
  | (k, v) :: rest =>
    "\"" ++ k ++ "\":" ++ Value.render v ++ "," ++ Value.renderFields rest

end

/-- `value_preview` (evalcraft-types/src/lib.rs lines 263-268). -/
def value_preview (v : Value) : String :=
  match v with
  | .str s => s
  | _ => v.render

/-- `truncate` (evalcraft-types/src/lib.rs lines 270-277): the guard uses
the byte length (`s.len()`), the cut takes characters. -/
def truncate (s : String) (max_len : Nat) : String :=
  if s.utf8ByteSize ≤ max_len then s
  else String.mk (s.toList.take (max_len - 1)) ++ "…"

/-- `EvalResult::summary_table` (evalcraft-types/src/lib.rs lines 226-261):
one row per case (id or "-", a pass mark, the per-case average score, and
truncated previews of input/output/expected), then a blank line and the
`Total/Passed/Pass rate/Avg score` summary line. -/
def EvalResult.summary_table (r : EvalResult) : String :=
  let rows := r.cases.map (fun cr =>
    let id := cr.case.id.getD "-"
    let passedMark :=
      if !cr.scores.isEmpty && cr.scores.all (fun s => s.passed) then "✓"
      else " "
    let avg : Rat :=
      if cr.scores.isEmpty then 0
      else ((cr.scores.map (fun s => s.value)).sum) / (cr.scores.length : Rat)
    String.intercalate " | "
      [id, passedMark, toString avg,
       truncate (value_preview cr.case.input) 64,
       truncate (value_preview cr.output) 64,
       truncate (value_preview cr.case.expected) 64])
  let table_str := String.intercalate "\n" rows
  let summary_text :=
    "Total: " ++ toString r.summary.total ++
    "  Passed: " ++ toString r.summary.passed ++
    "  Pass rate: " ++ toString (r.summary.pass_rate * 100) ++ "%" ++
    "  Avg score: " ++ toString r.summary.avg_score
  table_str ++ "\n\n" ++ summary_text ++ "\n"

/-- `assert_eval_pass_rate` (testing.rs lines 26-36): takes the result by
shared reference (so it cannot change it) and bails with a message exactly
when `pass_rate < min_pass_rate`. -/
def assert_eval_pass_rate (result : EvalResult) (min_pass_rate : Rat) :
    Except String Unit :=
  if result.summary.pass_rate < min_pass_rate then
    .error ("Evaluation failed: pass rate " ++
      toString (result.summary.pass_rate * 100) ++
      "% is below threshold " ++ toString (min_pass_rate * 100) ++ "%\n" ++
      result.summary_table)
  else
    .ok ()

/-- `assert_eval_avg_score` (testing.rs lines 39-49). -/
def assert_eval_avg_score (result : EvalResult) (min_avg_score : Rat) :
    Except String Unit :=
  if result.summary.avg_score < min_avg_score then
    .error ("Evaluation failed: avg score " ++
      toString result.summary.avg_score ++
      " is below threshold " ++ toString min_avg_score ++ "\n" ++
      result.summary_table)
  else
    .ok ()

/-- `assert_eval_all_passed` (testing.rs lines 52-62). -/
def assert_eval_all_passed (result : EvalResult) : Except String Unit :=
  if result.summary.passed ≠ result.summary.total then
    .error ("Evaluation failed: " ++ toString result.summary.passed ++ "/" ++
      toString result.summary.total ++ " cases passed\n" ++
      result.summary_table)
  else
    .ok ()

/-! ### Specification-side definitions

The functions below restate what the spec's words say; the theorems compare
them with the code-derived functions above. -/

/-- The completed scoring pass for one case as the spec states it
(§4.3): one `Score` per configured scorer, in configured order — the
scorer's own `Score` on success, the synthetic failing `Score` on error. -/
def scoreAll (scorers : List Scorer) (expected output : Value) : List Score :=
  scorers.map (fun s =>
    match s.score expected output with
    | (_, .ok score) => score
    | (_, .error err) =>
      { name := s.name, value := 0, passed := false,
        details := some (.obj [("error", .str err)]) })

/-- Spec: `count(cr where cr.scores non-empty and all(s.passed for s in
cr.scores))`. -/
def passedCount (cases : List CaseResult) : Nat :=
  cases.countP (fun cr => decide (cr.scores ≠ [] ∧ ∀ s ∈ cr.scores, s.passed = true))

/-- Spec: every individual `Score.value` across all cases. -/
def allScoreValues (cases : List CaseResult) : List Rat :=
  (cases.map (fun cr => cr.scores.map (fun s => s.value))).flatten

/-- `EvalSummary` as §8 of the spec states it: `total` is the number of
`CaseResult`s, `passed` the count of fully-passed cases, `pass_rate` is
`passed/total` (0 when `total = 0`), `avg_score` the mean of every
individual score value (0 when no scores exist anywhere). -/
def specSummary (cases : List CaseResult) : EvalSummary :=
  { total := cases.length,
    passed := passedCount cases,
    pass_rate :=
      if cases.length = 0 then 0
      else (passedCount cases : Rat) / (cases.length : Rat),
    avg_score :=
      if allScoreValues cases = [] then 0
      else (allScoreValues cases).sum / ((allScoreValues cases).length : Rat) }

/-! ### Serialized result shape

serde serialization of the result model, at the level of field names and
order, honouring the `skip_serializing_if` attributes
(`error: Option::is_none`, `score.details: Option::is_none`,
`traces: Vec::is_empty`, and the optional `Trace` fields). -/

/-- An optional serde field: absent when the option is `none`. -/
def optField (k : String) : Option Value → List (String × Value)
  | none => []
  | some v => [(k, v)]

/-- serde shape of `TestCase` (no skip attributes: `id` is `null` when
absent). -/
def serializeTestCase (c : TestCase) : Value :=
  .obj [("id", match c.id with | none => .null | some s => .str s),
        ("input", c.input), ("expected", c.expected)]

/-- serde shape of `Score`. -/
def serializeScore (s : Score) : Value :=
  .obj ([("name", .str s.name), ("value", .num s.value),
         ("passed", .bool s.passed)] ++ optField "details" s.details)

/-- serde shape of `TokenUsage`. -/
def serializeTokenUsage (u : TokenUsage) : Value :=
  .obj [("input_tokens", .num u.input_tokens),
        ("output_tokens", .num u.output_tokens),
        ("total_tokens", .num u.total_tokens)]

/-- serde shape of `Trace` (timestamps as numbers, per the `Nat` model). -/
def serializeTrace (t : Trace) : Value :=
  .obj (optField "id" (t.id.map .str)
    ++ [("start", .num t.start), ("end", .num t.stop)]
    ++ optField "duration_ms" (t.duration_ms.map (fun n => .num n))
    ++ optField "model" (t.model.map .str)
    ++ [("input", t.input), ("output", t.output)]
    ++ optField "usage" (t.usage.map serializeTokenUsage)
    ++ optField "metadata" t.metadata
    ++ optField "error" (t.error.map .str))

/-- serde shape of `CaseResult` (evalcraft-types/src/lib.rs lines 167-176):
`case`, `output`, `error` (skipped when `None`), `scores`, `traces`
(skipped when empty). -/
def serializeCaseResult (cr : CaseResult) : Value :=
  .obj ([("case", serializeTestCase cr.case), ("output", cr.output)]
    ++ optField "error" (cr.error.map .str)
    ++ [("scores", .arr (cr.scores.map serializeScore))]
    ++ (if cr.traces.isEmpty then []
        else [("traces", .arr (cr.traces.map serializeTrace))]))

/-- Top-level keys of a serialized object. -/
def objKeys : Value → List String
  | .obj fs => fs.map Prod.fst
  | _ => []

/-- A concrete trace used to exercise the trace-collection pipeline. -/
def sampleTrace : Trace :=
  { id := some "t", start := 0, stop := 1, duration_ms := some 1,
    model := none, input := .null, output := .null, usage := none,
    metadata := none, error := none }

/-! ### Helper lemmas -/

theorem emitted_append (a b : List TraceAct) :
    emitted (a ++ b) = emitted a ++ emitted b := by
  induction a with
  | nil => simp [emitted]
  | cons hd tl ih => cases hd <;> simp [emitted, ih]

/-- Running actions with at least one active scope appends exactly the
emitted traces to the innermost scope and leaves every outer scope
untouched. -/
theorem runActs_stack (acts : List TraceAct) :
    ∀ (s : List Trace) (rest : TraceState),
      runActs acts (s :: rest) = (s ++ emitted acts) :: rest := by
  induction acts with
  | nil => intro s rest; simp [runActs, emitted]
  | cons hd tl ih =>
    intro s rest
    cases hd with
    | emit t => simp [runActs, runAct, report_trace, emitted, ih]
    | nested body => simp [runActs, runAct, scope_tracesState, emitted, ih]

theorem scope_tracesState_eq (body : List TraceAct) (st : TraceState) :
    scope_tracesState body st = (emitted body, st) := by
  simp [scope_tracesState, runActs_stack]

theorem scope_traces_eq {α : Type u} (res : α) (body : List TraceAct)
    (st : TraceState) :
    scope_traces res body st = ((res, emitted body), st) := by
  simp [scope_traces, scope_tracesState_eq]

theorem caseBody_err (task : Task) (scorers : List Scorer) (c : TestCase)
    (acts : List TraceAct) (e : String)
    (h : task.run c.input = (acts, .error e)) :
    caseBody task scorers c = (acts, .error e) := by
  simp [caseBody, h]

theorem caseBody_ok (task : Task) (scorers : List Scorer) (c : TestCase)
    (acts : List TraceAct) (out : Value)
    (h : task.run c.input = (acts, .ok out)) :
    caseBody task scorers c =
      (acts ++ (scorers.map (fun s => (s.score c.expected out).1)).flatten,
       .ok (out, scoreAll scorers c.expected out)) := by
  have hscored : ∀ (g : Scorer → List TraceAct × Score),
      (if scorers.isEmpty then [] else scorers.map g) = scorers.map g := by
    intro g; cases scorers <;> simp
  simp only [caseBody, h, hscored, Prod.mk.injEq, Except.ok.injEq]
  refine ⟨?_, trivial, ?_⟩
  · congr 1
    rw [List.map_map]
    congr 1
    apply List.map_congr_left
    intro s _
    rcases hs : s.score c.expected out with ⟨sacts, r⟩
    cases r <;> simp [hs]
  · rw [List.map_map]
    unfold scoreAll
    apply List.map_congr_left
    intro s _
    rcases hs : s.score c.expected out with ⟨sacts, r⟩
    cases r <;> simp [hs]

theorem processCase_err (task : Task) (scorers : List Scorer) (c : TestCase)
    (acts : List TraceAct) (e : String)
    (h : task.run c.input = (acts, .error e)) :
    processCase task scorers c =
      { case := c, output := .null, error := some e, scores := [],
        traces := emitted acts } := by
  simp [processCase, caseBody_err task scorers c acts e h, scope_traces_eq]

theorem processCase_ok (task : Task) (scorers : List Scorer) (c : TestCase)
    (acts : List TraceAct) (out : Value)
    (h : task.run c.input = (acts, .ok out)) :
    processCase task scorers c =
      { case := c, output := out, error := none,
        scores := scoreAll scorers c.expected out,
        traces := emitted acts ++
          emitted ((scorers.map (fun s => (s.score c.expected out).1)).flatten) } := by
  simp [processCase, caseBody_ok task scorers c acts out h, scope_traces_eq,
        emitted_append]

/-- The `case` field of an execution unit's result is the input case,
unchanged. -/
theorem processCase_case (task : Task) (scorers : List Scorer) (c : TestCase) :
    (processCase task scorers c).case = c := by
  rcases h : task.run c.input with ⟨acts, r⟩
  cases r with
  | ok out => rw [processCase_ok task scorers c acts out h]
  | error e => rw [processCase_err task scorers c acts e h]

/-- The inner score loop accumulates the sum and the count of the case's
score values. -/
theorem score_foldl (scores : List Score) :
    ∀ (ss : Rat) (sc : Nat),
      scores.foldl (fun a s => (a.1 + s.value, a.2 + 1)) (ss, sc) =
        (ss + (scores.map (fun s => s.value)).sum, sc + scores.length) := by
  induction scores with
  | nil => intro ss sc; simp
  | cons s t ih =>
    intro ss sc
    simp only [List.foldl_cons, ih, List.map_cons, List.sum_cons,
      List.length_cons, Prod.mk.injEq]
    constructor
    · ring
    · omega

/-- The per-case pass test in `summarize` computes the spec's predicate
"scores non-empty and every score passed". -/
theorem all_passed_eq (cr : CaseResult) :
    (!cr.scores.isEmpty && cr.scores.all (fun s => s.passed)) =
      decide (cr.scores ≠ [] ∧ ∀ s ∈ cr.scores, s.passed = true) := by
  rw [Bool.eq_iff_iff]
  simp [List.all_eq_true, List.isEmpty_iff]

/-- `passedCount` splits off its head element. -/
theorem passedCount_cons (cr : CaseResult) (t : List CaseResult) :
    passedCount (cr :: t) = passedCount [cr] + passedCount t := by
  simp only [passedCount, List.countP_cons, List.countP_nil]
  cases hf : decide (cr.scores ≠ [] ∧ ∀ s ∈ cr.scores, s.passed = true) <;>
    (simp; try omega)

/-- One step of the `summarize` loop, in closed form. -/
theorem summarizeStep_eq (acc : Nat × Rat × Nat) (cr : CaseResult) :
    summarizeStep acc cr =
      (acc.1 + passedCount [cr],
       acc.2.1 + (cr.scores.map (fun s => s.value)).sum,
       acc.2.2 + cr.scores.length) := by
  rcases acc with ⟨p, ss, sc⟩
  simp only [summarizeStep, score_foldl, all_passed_eq, passedCount,
    List.countP_cons, List.countP_nil, decide_eq_true_eq]
  by_cases hc : cr.scores ≠ [] ∧ ∀ s ∈ cr.scores, s.passed = true
  · rw [if_pos hc, if_pos hc]
  · simp [hc]

/-- The accumulation loop of `summarize`, in closed form. -/
theorem summarize_foldl (cases : List CaseResult) :
    ∀ (p : Nat) (ss : Rat) (sc : Nat),
      cases.foldl summarizeStep (p, ss, sc) =
        (p + passedCount cases, ss + (allScoreValues cases).sum,
         sc + (allScoreValues cases).length) := by
  induction cases with
  | nil => intro p ss sc; simp [passedCount, allScoreValues]
  | cons cr t ih =>
    intro p ss sc
    have hasv : allScoreValues (cr :: t) =
        cr.scores.map (fun s => s.value) ++ allScoreValues t := by
      simp [allScoreValues]
    have hpc := passedCount_cons cr t
    rw [List.foldl_cons, summarizeStep_eq, ih, hasv]
    simp only [List.sum_append, List.length_append, List.length_map,
      Prod.mk.injEq]
    refine ⟨by omega, by ring, by omega⟩

/-- `(range l.length).filterMap l.get?` recovers `l` itself. -/
theorem range_filterMap_get {α : Type u} (l : List α) :
    (List.range l.length).filterMap (fun i => l.get? i) = l := by
  induction l with
  | nil => simp
  | cons x t ih =>
    rw [List.length_cons, List.range_succ_eq_map, List.filterMap_cons,
        List.filterMap_map]
    simp only [List.get?_cons_zero, Function.comp_def, List.get?_cons_succ]
    rw [ih]

/-- Collecting in any completion order that is a permutation of the input
indices yields a permutation of the in-order results. -/
theorem reorder_perm {α : Type u} {l : List α} {ord : List Nat}
    (h : ord.Perm (List.range l.length)) : (reorder l ord).Perm l := by
  have hp := h.filterMap (fun i => l.get? i)
  rw [range_filterMap_get] at hp
  exact hp

/-! ### Claim theorems -/

/-- C1: `EvalResult.summarize(cases)` equals the reference fold:
`total` is the number of `CaseResult`s, `passed` the count of cases whose
scores list is non-empty and all passed, `avg_score` the mean of every
individual `Score.value` across all cases (0 when no scores exist
anywhere), `pass_rate` equals `passed/total` with 0 when `total = 0` and
never a division error. -/
theorem summarize_agrees_with_spec (cases : List CaseResult) :
    EvalResult.summarize cases = specSummary cases := by
  have h := summarize_foldl cases 0 0 0
  simp only [EvalResult.summarize, specSummary, h, Nat.zero_add, zero_add,
    List.length_eq_zero]

/-- C6: `scope_traces(body)` establishes a fresh empty trace collection,
runs the body to completion (its outcome `res` — success or failure — is
returned unchanged), returns exactly the traces emitted by `report_trace`
into this scope in emission order, and leaves every enclosing scope's
collection untouched, so traces of one scope never appear in another
scope's collection. -/
theorem scope_traces_contract {α : Type u} (res : α) (body : List TraceAct)
    (st : TraceState) :
    scope_traces res body st = ((res, emitted body), st) :=
  scope_traces_eq res body st

/-- C7: calling `report_trace` with no active trace scope is a silent
no-op: it returns normally (the function is total) and leaves the
task-local storage unchanged. -/
theorem report_trace_without_scope_noop (t : Trace) :
    report_trace t [] = [] := rfl

/-- C10: `assert_eval_pass_rate(result, min_pass_rate)` returns an error
precisely when `summary.pass_rate < min_pass_rate` and `Ok(())` otherwise
(it takes the result by shared reference, so the result is unchanged in
both outcomes). -/
theorem assert_eval_pass_rate_iff (r : EvalResult) (t : Rat) :
    (assert_eval_pass_rate r t = .ok () ↔ ¬ r.summary.pass_rate < t) ∧
    ((∃ msg, assert_eval_pass_rate r t = .error msg) ↔
      r.summary.pass_rate < t) := by
  by_cases h : r.summary.pass_rate < t <;> simp [assert_eval_pass_rate, h]

/-- C2: for every input list of cases and every concurrency setting, the
case pipeline (`run_cases_internal`, hence `run()` and
`run_without_scoring()`) yields exactly one `CaseResult` per input case,
whatever completion order `buffer_unordered` produces: the result list has
the input's length and its `case` fields are a permutation of the input
cases, each case (id/input/expected) unchanged. -/
theorem run_cases_internal_complete (ds : DataSource) (task : Task)
    (scorers : List Scorer) (concurrency : Nat) (run_scorers : Bool)
    (cases : List TestCase) (ord : List Nat)
    (hord : ord.Perm (List.range cases.length)) :
    (Eval.run_cases_internal ⟨ds, task, scorers, concurrency⟩ cases
        run_scorers ord).length = cases.length ∧
    ((Eval.run_cases_internal ⟨ds, task, scorers, concurrency⟩ cases
        run_scorers ord).map (fun cr => cr.case)).Perm cases := by
  have hlen : (cases.map (processCase task
      (if run_scorers then scorers else []))).length = cases.length :=
    List.length_map _ _
  have hperm : (reorder (cases.map (processCase task
      (if run_scorers then scorers else []))) ord).Perm
        (cases.map (processCase task (if run_scorers then scorers else []))) :=
    reorder_perm (by rw [hlen]; exact hord)
  have hmc : (cases.map (processCase task
      (if run_scorers then scorers else []))).map (fun cr => cr.case) =
        cases := by
    rw [List.map_map]
    have : ∀ c ∈ cases, ((fun cr => cr.case) ∘ processCase task
        (if run_scorers then scorers else [])) c = id c := fun c _ =>
      processCase_case _ _ c
    rw [List.map_congr_left this, List.map_id]
  have heq : Eval.run_cases_internal ⟨ds, task, scorers, concurrency⟩ cases
      run_scorers ord = reorder (cases.map (processCase task
        (if run_scorers then scorers else []))) ord := rfl
  rw [heq]
  have h2 := hperm.map (fun cr => cr.case)
  rw [hmc] at h2
  exact ⟨hperm.length_eq.trans hlen, h2⟩

/-- Witness for C2 at two concrete cases completing out of order. -/
theorem run_cases_internal_complete_witness :
    ([1, 0] : List Nat).Perm (List.range 2) ∧
    ((Eval.run_cases_internal
        ⟨VecDataSource [], ⟨fun v => ([], .ok v)⟩, [], 1⟩
        [⟨some "a", .null, .null⟩, ⟨some "b", .bool true, .null⟩]
        true [1, 0]).length = 2 ∧
      ((Eval.run_cases_internal
          ⟨VecDataSource [], ⟨fun v => ([], .ok v)⟩, [], 1⟩
          [⟨some "a", .null, .null⟩, ⟨some "b", .bool true, .null⟩]
          true [1, 0]).map (fun cr => cr.case)).Perm
        [⟨some "a", .null, .null⟩, ⟨some "b", .bool true, .null⟩]) :=
  ⟨by decide,
   run_cases_internal_complete (VecDataSource []) ⟨fun v => ([], .ok v)⟩ [] 1
     true [⟨some "a", .null, .null⟩, ⟨some "b", .bool true, .null⟩] [1, 0]
     (by decide)⟩

/-- C3: every `CaseResult` has exactly one of `error` set or a completed
scoring pass: when the task fails, `error` holds the failure message,
`scores` is empty and `output` is `Null`; when the task succeeds, `error`
is `None` and `scores` is the completed scoring pass.  The result of a case
depends only on that case, so one case's failure leaves every other case's
result unchanged. -/
theorem case_error_xor_scores (task : Task) (scorers : List Scorer)
    (c : TestCase) :
    (∀ acts e, task.run c.input = (acts, .error e) →
      (processCase task scorers c).error = some e ∧
      (processCase task scorers c).scores = [] ∧
      (processCase task scorers c).output = Value.null) ∧
    (∀ acts out, task.run c.input = (acts, .ok out) →
      (processCase task scorers c).error = none ∧
      (processCase task scorers c).scores = scoreAll scorers c.expected out ∧
      (processCase task scorers c).output = out) ∧
    (∀ (cases cases' : List TestCase) (i : Nat),
      cases[i]? = cases'[i]? →
      (cases.map (processCase task scorers))[i]? =
        (cases'.map (processCase task scorers))[i]?) := by
  refine ⟨?_, ?_, ?_⟩
  · intro acts e h
    rw [processCase_err task scorers c acts e h]
    exact ⟨rfl, rfl, rfl⟩
  · intro acts out h
    rw [processCase_ok task scorers c acts out h]
    exact ⟨rfl, rfl, rfl⟩
  · intro cases cases' i h
    rw [List.getElem?_map, List.getElem?_map, h]

/-- Witness for C3 at a concrete failing task. -/
theorem case_error_xor_scores_witness :
    (processCase ⟨fun _ => ([], .error "boom")⟩ [] ⟨none, .null, .null⟩).error
        = some "boom" ∧
    (processCase ⟨fun _ => ([], .error "boom")⟩ [] ⟨none, .null, .null⟩).scores
        = [] ∧
    (processCase ⟨fun _ => ([], .error "boom")⟩ [] ⟨none, .null, .null⟩).output
        = Value.null :=
  (case_error_xor_scores ⟨fun _ => ([], .error "boom")⟩ []
    ⟨none, .null, .null⟩).1 [] "boom" rfl

/-- C8: `EvalBuilder::build()` returns a configuration error exactly when
no `DataSource` or no `Task` has been set; when both are set it succeeds,
carrying the configured dependencies over unchanged.  `build` is a plain
synchronous function whose result never consults `DataSource::load` or
`Task::run`, so the error is reported before any case executes. -/
theorem build_missing_dependency_error (b : EvalBuilder) :
    ((∃ err, b.build = .error err) ↔ (b.data_source = none ∨ b.task = none)) ∧
    (∀ ds t, b.data_source = some ds → b.task = some t →
      b.build = .ok { data_source := ds, task := t, scorers := b.scorers,
                      concurrency := b.concurrency }) := by
  rcases hds : b.data_source with _ | ds <;> rcases ht : b.task with _ | t <;>
    simp [EvalBuilder.build, hds, ht]

/-- Witness for C8 at a concrete fully-configured builder. -/
theorem build_missing_dependency_error_witness :
    ((EvalBuilder.new.set_data_source (VecDataSource [])).set_task
        ⟨fun v => ([], .ok v)⟩).build =
      .ok { data_source := VecDataSource [], task := ⟨fun v => ([], .ok v)⟩,
            scorers := [], concurrency := 8 } :=
  (build_missing_dependency_error
    ((EvalBuilder.new.set_data_source (VecDataSource [])).set_task
      ⟨fun v => ([], .ok v)⟩)).2 (VecDataSource []) ⟨fun v => ([], .ok v)⟩
    rfl rfl

/-- The traces field of every case result is exactly what its body emitted
into the case's fresh scope, in emission order. -/
theorem processCase_traces (task : Task) (scorers : List Scorer)
    (c : TestCase) :
    (processCase task scorers c).traces = emitted (caseBody task scorers c).1 := by
  rcases hb : caseBody task scorers c with ⟨acts0, r0⟩
  simp only [processCase, hb, scope_traces_eq]
  cases r0 with
  | ok p => rcases p with ⟨o, sc⟩; rfl
  | error e => rfl

/-- Key set of a serialized `CaseResult`: `case`, `output` and `scores`
always; `error` exactly when set; `traces` exactly when non-empty. -/
theorem serializeCaseResult_keys (cr : CaseResult) :
    ("case" ∈ objKeys (serializeCaseResult cr)) ∧
    ("output" ∈ objKeys (serializeCaseResult cr)) ∧
    ("scores" ∈ objKeys (serializeCaseResult cr)) ∧
    ("traces" ∈ objKeys (serializeCaseResult cr) ↔ cr.traces ≠ []) ∧
    ("error" ∈ objKeys (serializeCaseResult cr) ↔ cr.error.isSome = true) := by
  rcases he : cr.error with _ | e <;> rcases ht : cr.traces with _ | ⟨t0, ts⟩ <;>
    simp [serializeCaseResult, objKeys, optField, he, ht]

/-- C4: for a case whose task succeeded, a failing scorer contributes the
synthetic `Score { name, value: 0.0, passed: false, details: {error} }` at
its own position while the remaining scorers still run; a scorer failure
never sets the case's `error`; and (for scorers honouring the name
contract) the scores list has exactly one `Score` per configured scorer, in
configured order, each named after its producing scorer. -/
theorem scorer_failure_synthetic_score (task : Task) (scorers : List Scorer)
    (c : TestCase) (acts : List TraceAct) (out : Value)
    (hok : task.run c.input = (acts, .ok out))
    (hnames : ∀ s ∈ scorers, ∀ sacts sc,
      s.score c.expected out = (sacts, .ok sc) → sc.name = s.name) :
    (processCase task scorers c).error = none ∧
    (processCase task scorers c).scores.length = scorers.length ∧
    (∀ (i : Nat) (s' : Scorer), scorers[i]? = some s' →
      (∀ sacts e, s'.score c.expected out = (sacts, .error e) →
        (processCase task scorers c).scores[i]? =
          some { name := s'.name, value := 0, passed := false,
                 details := some (.obj [("error", .str e)]) }) ∧
      (∀ sacts sc, s'.score c.expected out = (sacts, .ok sc) →
        (processCase task scorers c).scores[i]? = some sc) ∧
      (∃ s0, (processCase task scorers c).scores[i]? = some s0 ∧
        s0.name = s'.name)) := by
  have hrec := processCase_ok task scorers c acts out hok
  have herr : (processCase task scorers c).error = none := by rw [hrec]
  have hsc : (processCase task scorers c).scores =
      scoreAll scorers c.expected out := by rw [hrec]
  refine ⟨herr, ?_, ?_⟩
  · rw [hsc]
    simp [scoreAll]
  · intro i s' hget
    have hmem : s' ∈ scorers := List.getElem?_mem hget
    rcases hs : s'.score c.expected out with ⟨sacts0, r0⟩
    cases r0 with
    | ok sc0 =>
      have hgi : (scoreAll scorers c.expected out)[i]? = some sc0 := by
        unfold scoreAll
        rw [List.getElem?_map, hget]
        simp [hs]
      refine ⟨?_, ?_, ⟨sc0, by rw [hsc]; exact hgi,
        hnames s' hmem sacts0 sc0 hs⟩⟩
      · intro sacts e he
        exact absurd he (by simp)
      · intro sacts sc h'
        have hsc0 : sc0 = sc := by simpa using congrArg Prod.snd h'
        rw [hsc, ← hsc0]
        exact hgi
    | error e0 =>
      have hgi : (scoreAll scorers c.expected out)[i]? =
          some { name := s'.name, value := 0, passed := false,
                 details := some (.obj [("error", .str e0)]) } := by
        unfold scoreAll
        rw [List.getElem?_map, hget]
        simp [hs]
      refine ⟨?_, ?_, ⟨_, by rw [hsc]; exact hgi, rfl⟩⟩
      · intro sacts e he
        have he2 : e0 = e := by simpa using congrArg Prod.snd he
        rw [hsc, ← he2]
        exact hgi
      · intro sacts sc h'
        exact absurd h' (by simp)

/-- Witness for C4 at a concrete failing scorer. -/
theorem scorer_failure_synthetic_score_witness :
    (processCase ⟨fun _ => ([], .ok (.str "o"))⟩
        [⟨"bad", fun _ _ => ([], .error "regex fail")⟩]
        ⟨none, .null, .null⟩).scores[0]? =
      some { name := "bad", value := 0, passed := false,
             details := some (.obj [("error", .str "regex fail")]) } := by
  have h := scorer_failure_synthetic_score ⟨fun _ => ([], .ok (.str "o"))⟩
      [⟨"bad", fun _ _ => ([], .error "regex fail")⟩] ⟨none, .null, .null⟩
      [] (.str "o") rfl ?names
  case names =>
    intro s hs sacts sc hsc
    rw [List.mem_singleton] at hs
    subst hs
    exact absurd hsc (by simp)
  exact (h.2.2 0 ⟨"bad", fun _ _ => ([], .error "regex fail")⟩ rfl).1
    [] "regex fail" rfl

/-- C5: every `CaseResult` carries, in emission order, exactly the traces
emitted during that case's execution — including those emitted before a
task failure — and the serialized `CaseResult` shape has the `traces` field
alongside `case`, `output`, `error` and `scores` (with the serde skips:
`error` appears when set, `traces` when non-empty). -/
theorem case_traces_collected (task : Task) (scorers : List Scorer)
    (c : TestCase) :
    (processCase task scorers c).traces = emitted (caseBody task scorers c).1 ∧
    (∀ acts e, task.run c.input = (acts, .error e) →
      (processCase task scorers c).traces = emitted acts) ∧
    ("case" ∈ objKeys (serializeCaseResult (processCase task scorers c))) ∧
    ("output" ∈ objKeys (serializeCaseResult (processCase task scorers c))) ∧
    ("scores" ∈ objKeys (serializeCaseResult (processCase task scorers c))) ∧
    ("traces" ∈ objKeys (serializeCaseResult (processCase task scorers c)) ↔
      (processCase task scorers c).traces ≠ []) ∧
    ("error" ∈ objKeys (serializeCaseResult (processCase task scorers c)) ↔
      (processCase task scorers c).error.isSome = true) := by
  obtain ⟨h1, h2, h3, h4, h5⟩ :=
    serializeCaseResult_keys (processCase task scorers c)
  refine ⟨processCase_traces task scorers c, ?_, h1, h2, h3, h4, h5⟩
  intro acts e h
  rw [processCase_err task scorers c acts e h]

/-- Witness for C5: a task that emits one trace and then fails still hands
that trace to its `CaseResult`. -/
theorem case_traces_collected_witness :
    (processCase ⟨fun _ => ([.emit sampleTrace], .error "x")⟩
        [] ⟨none, .null, .null⟩).traces = [sampleTrace] := by
  have h := (case_traces_collected
      ⟨fun _ => ([.emit sampleTrace], .error "x")⟩
      [] ⟨none, .null, .null⟩).2.1 [.emit sampleTrace] "x" rfl
  simpa [emitted] using h

/-- C9 (code-bug evidence): `run_without_scoring` over a single case whose
task succeeds.  Every `CaseResult` indeed has empty `scores` and the
summary is still computed, but `summary.passed` is `0` — not the count of
error-free cases — because `summarize` counts a case as passed only when
its scores list is non-empty.  This contradicts the claim (and the
comment in `run_without_scoring` itself: "correct pass/fail based on
errors"): the error-free case is not counted and `pass_rate` collapses
to `0`. -/
theorem run_without_scoring_passed_zero :
    Eval.run_without_scoring
      { data_source := VecDataSource [⟨some "a", .str "x", .str "x"⟩],
        task := ⟨fun v => ([], .ok v)⟩,
        scorers := [⟨"exact", fun _ _ => ([], .ok ⟨"exact", 1, true, none⟩)⟩],
        concurrency := 1 } [0] =
      .ok { cases := [{ case := ⟨some "a", .str "x", .str "x"⟩,
                        output := .str "x", error := none, scores := [],
                        traces := [] }],
            summary := { total := 1, passed := 0, pass_rate := 0,
                         avg_score := 0 } } := by
  simp [Eval.run_without_scoring, Eval.run_cases_internal, VecDataSource,
    reorder, processCase, caseBody, scope_traces, scope_tracesState,
    runActs, emitted, EvalResult.summarize, summarizeStep]

end Evalcraft
